import Mathlib

/-
Verification development for the Yelp star-schema ETL repository.

The repository contains three ETL variants building a dimensional model from
the raw Yelp JSON collections:
  * ETL/business_owners_and_managers_ETL.py  (Spark; monthly performance facts)
  * ETL/investorsETL.py                      (pandas; daily performance facts)
  * ETL/marketingETL.py                      (Spark; customer-engagement facts)

Tables are shallowly embedded as Lean lists of records; DataFrame operations
(select, filter, explode, group-by aggregate, join, window lag) are embedded
as the corresponding list operations, with SQL null values embedded as Option
and SQL join semantics on nullable keys (null never matches null) made
explicit.  Machine floats used for counts and weights are embedded as Rat;
the arithmetic involved (weighted sums with weights 1.0, 0.5, 0.25, 0.2 and
one division) is exact in binary floating point for the ranges involved, so
Rat is a faithful model of the value-level behaviour under scrutiny.
-/

/-- Calendar date (year, month, day), the result of truncating a timestamp to
a date, as produced by the library date parsers used in the sources. -/
structure Date where
  year : Nat
  month : Nat
  day : Nat
deriving DecidableEq, Repr

/-- Range constraints satisfied by every date a successful library parse can
produce.  The per-month day bound (28/29/30/31) is approximated by 31; none of
the verified claims depend on the finer bound. -/
def Date.valid (d : Date) : Prop :=
  1 ≤ d.month ∧ d.month ≤ 12 ∧ 1 ≤ d.day ∧ d.day ≤ 31

instance (d : Date) : Decidable d.valid := by
  unfold Date.valid; infer_instance

/-- Numeric value of a decimal digit character, if it is one. -/
def charDigit? (c : Char) : Option Nat :=
  if '0' ≤ c ∧ c ≤ '9' then some (c.toNat - '0'.toNat) else none

/-- Two-digit decimal number. -/
def twoDigits? (a b : Char) : Option Nat := do
  let x ← charDigit? a
  let y ← charDigit? b
  pure (10 * x + y)

/-- Four-digit decimal number. -/
def fourDigits? (a b c d : Char) : Option Nat := do
  let x ← twoDigits? a b
  let y ← twoDigits? c d
  pure (100 * x + y)

/-- Modelled library function: the date parsers used by the sources
(Spark `to_date` / `to_timestamp`, pandas `pd.to_datetime`), which all
consume the source timestamp format `yyyy-MM-dd[ HH:mm:ss]` and truncate to
the calendar date, returning null (here: `none`) on a malformed value.
The time-of-day part is not validated here, since no claim depends on it. -/
def parseDate (s : String) : Option Date :=
  match s.data with
  | y1 :: y2 :: y3 :: y4 :: '-' :: m1 :: m2 :: '-' :: d1 :: d2 :: rest =>
    if rest = [] ∨ rest.head? = some ' ' then
      match fourDigits? y1 y2 y3 y4, twoDigits? m1 m2, twoDigits? d1 d2 with
      | some y, some m, some d =>
        if 1 ≤ m ∧ m ≤ 12 ∧ 1 ≤ d ∧ d ≤ 31 then some ⟨y, m, d⟩ else none
      | _, _, _ => none
    else none
  | _ => none

/-- Encoding `yyyyMMdd` of a date as a number, as produced by
`date_format(date, "yyyyMMdd")` (cast to int in two of the variants; the
third keeps the same digits as a zero-padded string). -/
def dateId (d : Date) : Nat := d.year * 10000 + d.month * 100 + d.day

/-- Decoding of a `yyyyMMdd` key back into its calendar date. -/
def decodeDateId (k : Nat) : Date := ⟨k / 10000, k / 100 % 100, k % 100⟩

/-- Modelled library function: day of week with Sunday = 1 .. Saturday = 7
(the convention of Spark `dayofweek`), computed by the Zeller congruence. -/
def dayOfWeekSun1 (d : Date) : Nat :=
  let q : Int := d.day
  let m : Int := if d.month ≤ 2 then (d.month : Int) + 12 else d.month
  let y : Int := if d.month ≤ 2 then (d.year : Int) - 1 else d.year
  let kk : Int := y % 100
  let jj : Int := y / 100
  let h : Int := (q + 13 * (m + 1) / 5 + kk + kk / 4 + jj / 4 + 5 * jj) % 7
  (((h + 6) % 7) + 1).toNat

/-- Calendar quarter of a month (Spark `quarter` and pandas `dt.quarter`). -/
def quarterOfMonth (m : Nat) : Nat := (m + 2) / 3

/-- Drop the leading whitespace run of a character list. -/
def dropWs : List Char → List Char
  | [] => []
  | c :: rest => if c.isWhitespace then dropWs rest else c :: rest

/-- Splitting a character list at the regular expression `,\s*` — a comma
followed by a greedily consumed whitespace run — keeping empty pieces, as
Spark `F.split(col, ",\s*")` does.  The boolean is the scanner state "inside
the whitespace run following a comma". -/
def splitWsAux : Bool → List Char → List Char → List (List Char)
  | _, [], acc => [acc.reverse]
  | skip, c :: rest, acc =>
    if skip && c.isWhitespace then splitWsAux true rest acc
    else if c = ',' then acc.reverse :: splitWsAux true rest []
    else splitWsAux false rest (c :: acc)

/-- Modelled library function: Spark `F.split(col, ",\s*")`. -/
def splitCommaWs (s : String) : List String :=
  (splitWsAux false s.data []).map String.mk

/-- Splitting a character list at the literal two-character separator `", "`,
keeping empty pieces, as Spark `F.split(col, ", ")` and pandas
`str.split(', ')` do. -/
def splitLitAux : List Char → List Char → List (List Char)
  | [], acc => [acc.reverse]
  | [c], acc => [(c :: acc).reverse]
  | ',' :: ' ' :: rest, acc => acc.reverse :: splitLitAux rest []
  | c :: rest, acc => splitLitAux rest (c :: acc)

/-- Modelled library function: splitting a string on the literal `", "`. -/
def splitCommaSpace (s : String) : List String :=
  (splitLitAux s.data []).map String.mk

/-- Modelled library function: whitespace trimming (`F.trim` / `str.strip`). -/
def strTrim (s : String) : String :=
  ⟨(dropWs (dropWs s.data).reverse).reverse⟩

/-- Group-by with a count aggregate over a list of keys: one output row per
distinct key, carrying the number of occurrences of that key. -/
def groupCount {K : Type} [DecidableEq K] (l : List K) : List (K × Nat) :=
  l.dedup.map (fun k => (k, l.countP (fun x => decide (x = k))))

/-- Modelled library function: arithmetic mean (`F.avg` / pandas `mean`);
only ever applied to non-empty groups. -/
def ratAvg (l : List Rat) : Rat := l.sum / (l.length : Rat)

/-- Chronological order on dates, expressed through the monotone `yyyyMMdd`
encoding. -/
def dateLE (a b : Date) : Prop := dateId a ≤ dateId b

instance : DecidableRel dateLE := fun a b => by unfold dateLE; infer_instance

/-- SQL left join of a single left row against a keyed right table: the list
of matches, or a single null-padded row when there is no match. -/
def leftJoinRow {α β : Type} (a : α) (right : List β) (key : β → Bool) : List (α × Option β) :=
  match right.filter key with
  | [] => [(a, none)]
  | ms => ms.map (fun b => (a, some b))

/-- SQL left join: every left row, paired with each matching right row, or
with null when no right row matches. -/
def leftJoin {α β : Type} (left : List α) (right : List β) (key : α → β → Bool) :
    List (α × Option β) :=
  left.flatMap (fun a => leftJoinRow a right (key a))

/-- SQL inner join: every matching pair of rows. -/
def innerJoin {α β : Type} (left : List α) (right : List β) (key : α → β → Bool) :
    List (α × β) :=
  left.flatMap (fun a => (right.filter (key a)).map (fun b => (a, b)))

namespace BO

/-
Embedding of ETL/business_owners_and_managers_ETL.py (Spark variant).
Record structures carry exactly the source columns that the embedded
builders consume; unused free-text columns and the location attributes
(consumed only by Dim_Location, which no claim mentions) are omitted.
-/

/-- Review record under the explicit review schema; `date` is the raw
timestamp string column. -/
structure Review where
  review_id : String
  user_id : String
  business_id : String
  stars : Rat
  date : String
deriving DecidableEq, Repr

/-- Checkin record: one natural key plus the comma-space separated string of
checkin timestamps. -/
structure Checkin where
  business_id : String
  date : String
deriving DecidableEq, Repr

/-- Tip record. -/
structure Tip where
  user_id : String
  business_id : String
  date : String
  compliment_count : Int
deriving DecidableEq, Repr

/-- Business record; `categories` is nullable in the raw data. -/
structure Business where
  business_id : String
  name : String
  categories : Option String
  is_open : Nat
deriving DecidableEq, Repr

/-- Nullable review dates: `to_date(col("date"))`. -/
def review_dates (rs : List Review) : List (Option Date) :=
  rs.map (fun r => parseDate r.date)

/-- Nullable tip dates: `to_date(col("date"))`. -/
def tip_dates (ts : List Tip) : List (Option Date) :=
  ts.map (fun t => parseDate t.date)

/-- Checkin dates: explode the `", "`-separated string into one row per
element, then `to_date(trim(...))`, kept nullable. -/
def checkin_dates (cs : List Checkin) : List (Option Date) :=
  cs.flatMap (fun c => (splitCommaSpace c.date).map (fun t => parseDate (strTrim t)))

/-- Union of all date sources, `distinct()`, then `na.drop()`. -/
def all_dates (rs : List Review) (ts : List Tip) (cs : List Checkin) : List Date :=
  ((review_dates rs ++ tip_dates ts ++ checkin_dates cs).dedup).filterMap id

/-- Row of Dim_Date.  `date_id` is the `yyyyMMdd` formatting of the date
(held as the corresponding number; the digits are identical). -/
structure DimDateRow where
  date_id : Nat
  date : Date
  month : Nat
  year : Nat
  quarter : Nat
  is_weekend : Bool
deriving DecidableEq, Repr

/-- Dim_Date: one row per surviving distinct date, with attributes computed
from the date alone. -/
def dim_date (rs : List Review) (ts : List Tip) (cs : List Checkin) : List DimDateRow :=
  (all_dates rs ts cs).map (fun d =>
    { date_id := dateId d, date := d, month := d.month, year := d.year,
      quarter := quarterOfMonth d.month,
      is_weekend := [1, 7].contains (dayOfWeekSun1 d) })

/-- Category splitting: `F.split(col("categories"), ",\s*")`; a null input
column yields a null array, which `explode` turns into no rows at all. -/
def splitCategories : Option String → List String
  | none => []
  | some s => splitCommaWs s

/-- Exploded (business_id, category_name) pairs, with null, empty and
literal-"null" category names filtered out. -/
def business_categories_exploded (bs : List Business) : List (String × String) :=
  (bs.flatMap (fun b => (splitCategories b.categories).map (fun c => (b.business_id, c)))).filter
    (fun p => p.2 != "" && p.2 != "null")

/-- Dim_Category: distinct category names with an assigned id
(`monotonically_increasing_id`, embedded as the position index). -/
def dim_category (bs : List Business) : List (Nat × String) :=
  (((business_categories_exploded bs).map Prod.snd).dedup).enum

/-- Fact_Business_Categories: inner join of the exploded pairs with
Dim_Category on the category name, projected to the two keys, `distinct()`. -/
def fact_business_categories (bs : List Business) : List (String × Nat) :=
  ((innerJoin (business_categories_exploded bs) (dim_category bs)
      (fun p c => p.2 == c.2)).map (fun pc => (pc.1.1, pc.2.1))).dedup

/-- Per-business lifetime review aggregate: group reviews by business_id,
with `avg(stars)` and `count(review_id)` (review ids are non-null, so the
count is the group size). -/
def business_review_overall_stats (rs : List Review) : List (String × Rat × Nat) :=
  ((rs.map Review.business_id).dedup).map (fun bid =>
    (bid, (ratAvg ((rs.filter (fun r => r.business_id == bid)).map Review.stars),
      rs.countP (fun r => r.business_id == bid))))

/-- Subcategory column of the entity dimension: the second element of the
split category array when the array has more than one element and that
element is non-null, non-empty and not the literal "null"; otherwise null.
A null categories column gives a null array, whose size is -1, so the
condition is false and the subcategory is null. -/
def subcategoryOf (categories : Option String) : Option String :=
  match categories with
  | none => none
  | some s =>
    if h : 1 < (splitCommaWs s).length then
      if (splitCommaWs s).get ⟨1, h⟩ ≠ "" ∧ (splitCommaWs s).get ⟨1, h⟩ ≠ "null"
        then some ((splitCommaWs s).get ⟨1, h⟩) else none
    else none

/-- Base business attributes with the derived subcategory. -/
structure BaseInfoRow where
  business_id : String
  name : String
  is_open : Bool
  subcategory : Option String
deriving DecidableEq, Repr

/-- Base entity attributes: select, split categories, derive subcategory,
drop the intermediate array. -/
def business_base_info (bs : List Business) : List BaseInfoRow :=
  bs.map (fun b => ⟨b.business_id, b.name, b.is_open == 1, subcategoryOf b.categories⟩)

/-- Row of Dim_Business. -/
structure DimBusinessRow where
  business_id : String
  name : String
  subcategory : Option String
  is_open : Bool
  overall_avg_rating : Option Rat
  overall_review_count : Nat
deriving DecidableEq, Repr

/-- Modelled library function: cast to DecimalType(3, 1), i.e. round
half-up to one decimal place (stars are non-negative). -/
def roundTo1 (q : Rat) : Rat := ((round (q * 10) : Int) : Rat) / 10

/-- Dim_Business: left join of the base attributes with the lifetime review
aggregate on business_id (aggregate keys are distinct, so the join is a
lookup), with the review count coalesced to 0, then `distinct()`. -/
def dim_business (bs : List Business) (rs : List Review) : List DimBusinessRow :=
  ((business_base_info bs).map (fun b =>
    let found := (business_review_overall_stats rs).find? (fun p => p.1 == b.business_id)
    { business_id := b.business_id, name := b.name, subcategory := b.subcategory,
      is_open := b.is_open,
      overall_avg_rating := found.map (fun p => roundTo1 p.2.1),
      overall_review_count := (found.map (fun p => p.2.2)).getD 0 })).dedup

/-- Nullable (business, year, month) key of a fact event: the year and month
columns are derived from the nullable parsed date. -/
abbrev YMKey := String × Option Nat × Option Nat

/-- Reviews tagged with (business_id, year, month). -/
def reviewYM (rs : List Review) : List YMKey :=
  rs.map (fun r =>
    (r.business_id, (parseDate r.date).map Date.year, (parseDate r.date).map Date.month))

/-- Exploded checkin instances tagged with (business_id, year, month);
`na.drop` on the parsed date removes malformed elements, so the year and
month of a surviving instance are never null. -/
def checkinYM (cs : List Checkin) : List YMKey :=
  cs.flatMap (fun c => (splitCommaSpace c.date).filterMap (fun t =>
    (parseDate (strTrim t)).map (fun d => (c.business_id, some d.year, some d.month))))

/-- Tips tagged with (business_id, year, month). -/
def tipYM (ts : List Tip) : List YMKey :=
  ts.map (fun t =>
    (t.business_id, (parseDate t.date).map Date.year, (parseDate t.date).map Date.month))

/-- Monthly review aggregate: count per distinct key. -/
def review_agg_monthly (rs : List Review) : List (YMKey × Nat) := groupCount (reviewYM rs)

/-- Monthly checkin aggregate. -/
def checkin_agg_monthly (cs : List Checkin) : List (YMKey × Nat) := groupCount (checkinYM cs)

/-- Monthly tip aggregate. -/
def tip_agg_monthly (ts : List Tip) : List (YMKey × Nat) := groupCount (tipYM ts)

/-- Union of the key projections of the three aggregates, `distinct()`. -/
def base_facts_monthly (rs : List Review) (cs : List Checkin) (ts : List Tip) : List YMKey :=
  ((review_agg_monthly rs).map Prod.fst ++ (checkin_agg_monthly cs).map Prod.fst ++
    (tip_agg_monthly ts).map Prod.fst).dedup

/-- SQL equality on the nullable join key: a null year or month never
matches anything, not even another null. -/
def keyMatch : YMKey → YMKey → Bool
  | (b1, y1, m1), (b2, y2, m2) =>
    b1 == b2 &&
      (match y1, y2 with | some a, some c => a == c | _, _ => false) &&
      (match m1, m2 with | some a, some c => a == c | _, _ => false)

/-- Left-join lookup of one aggregate at a key (aggregate keys are
distinct, so the join is a lookup). -/
def lookupAgg (agg : List (YMKey × Nat)) (k : YMKey) : Option Nat :=
  (agg.find? (fun p => keyMatch p.1 k)).map Prod.snd

/-- Row of the joined monthly fact table. -/
structure FactRow where
  business_id : String
  year : Nat
  month : Nat
  review_count : Nat
  checkin_count : Nat
  tip_count : Nat
deriving DecidableEq, Repr

/-- Left join of the three monthly aggregates onto the union key space,
followed by `na.fill(0)`, which fills both the null counts of unmatched
left joins and the null year/month of groups whose date failed to parse. -/
def fact_table_monthly_joined (rs : List Review) (cs : List Checkin) (ts : List Tip) :
    List FactRow :=
  (base_facts_monthly rs cs ts).map (fun k =>
    { business_id := k.1, year := k.2.1.getD 0, month := k.2.2.getD 0,
      review_count := (lookupAgg (review_agg_monthly rs) k).getD 0,
      checkin_count := (lookupAgg (checkin_agg_monthly cs) k).getD 0,
      tip_count := (lookupAgg (tip_agg_monthly ts) k).getD 0 })

/-- Window ordering of an entity partition: by (year, month). -/
def ymLE (a b : FactRow) : Prop :=
  a.year < b.year ∨ (a.year = b.year ∧ a.month ≤ b.month)

instance : DecidableRel ymLE := fun a b => by unfold ymLE; infer_instance

/-- Lag-1 pairing: each row of an ordered partition paired with the review
count of the previous row (null for the first row). -/
def addLag : Option Nat → List FactRow → List (FactRow × Option Nat)
  | _, [] => []
  | prev, r :: rest => (r, prev) :: addLag (some r.review_count) rest

/-- Growth-rate column: null when the lag is null or zero, otherwise the
relative change. -/
def review_growth_rate (cur : Nat) : Option Nat → Option Rat
  | none => none
  | some p => if p = 0 then none else some (((cur : Rat) - (p : Rat)) / (p : Rat))

/-- Fact rows of one entity partition, ordered by (year, month), each with
its growth rate (`F.lag` over the window partitioned by business_id). -/
def fact_table_with_growth (rows : List FactRow) (b : String) : List (FactRow × Option Rat) :=
  (addLag none (List.insertionSort ymLE (rows.filter (fun r => r.business_id == b)))).map
    (fun p => (p.1, review_growth_rate p.1.review_count p.2))

/-- Placeholder photo count: the source has no photo data. -/
def photo_count_monthly : Rat := 0

/-- Engagement score: fixed weighted sum of the monthly counts, including
the reserved photo term (weight 0.25) whose value is always 0. -/
def engagement_score (review_count tip_count checkin_count : Nat) : Rat :=
  (review_count : Rat) * 1 + (tip_count : Rat) * (1/2) + photo_count_monthly * (1/4) +
    (checkin_count : Rat) * (1/5)

/-- Final monthly fact rows of one entity partition: the joined counts, the
growth rate, and the engagement score. -/
def fact_table_final_monthly (rs : List Review) (cs : List Checkin) (ts : List Tip)
    (b : String) : List (FactRow × Option Rat × Rat) :=
  (fact_table_with_growth (fact_table_monthly_joined rs cs ts) b).map
    (fun p => (p.1, p.2, engagement_score p.1.review_count p.1.tip_count p.1.checkin_count))

end BO

namespace Inv

/-
Embedding of ETL/investorsETL.py (pandas variant).  The raw business frame
carries all columns the builders consume; latitude/longitude are embedded
as integers (no claim depends on numeric properties of coordinates, only
on tuple equality during location deduplication and merging).
-/

/-- Raw business record. -/
structure Business where
  business_id : String
  name : String
  address : String
  city : String
  state : String
  postal_code : String
  latitude : Int
  longitude : Int
  stars : Rat
  review_count : Nat
  is_open : Nat
  categories : Option String
deriving DecidableEq, Repr

/-- Raw review record (columns consumed by the builders). -/
structure Review where
  review_id : String
  business_id : String
  date : String
  stars : Rat
deriving DecidableEq, Repr

/-- Raw checkin record. -/
structure Checkin where
  business_id : String
  date : String
deriving DecidableEq, Repr

/-- Row of Dim_Location. -/
structure LocRow where
  location_key : Nat
  city : String
  state : String
  postal_code : String
  latitude : Int
  longitude : Int
deriving DecidableEq, Repr

/-- Dim_Location: project the five natural location attributes, deduplicate,
assign `location_key = range(1, n+1)` in output order. -/
def create_dim_location (df : List Business) : List LocRow :=
  ((df.map (fun b => (b.city, b.state, b.postal_code, b.latitude, b.longitude))).dedup).enum.map
    (fun p => ⟨p.1 + 1, p.2.1, p.2.2.1, p.2.2.2.1, p.2.2.2.2.1, p.2.2.2.2.2⟩)

/-- Dim_Category builder.  The `fillna('')` assignment
`df_business['categories'] = df_business['categories'].fillna('')` runs on
the caller frame, mutating the input DataFrame in place, so the builder is
embedded as a state transformer returning the mutated business table
alongside the dimension.  Splitting is on the literal `", "`; empty tokens
are removed, duplicates dropped, and `category_key = range(1, n+1)`
assigned in output order.  (`List.dedup` keeps one row per distinct label;
which occurrence survives only permutes key assignment, which no claim
depends on.) -/
def create_dim_category_st (df : List Business) : List Business × List (Nat × String) :=
  let df1 := df.map (fun b => { b with categories := some (b.categories.getD "") })
  let all_categories := df1.flatMap (fun b => splitCommaSpace (b.categories.getD ""))
  let unique_categories := (all_categories.filter (fun c => c != "")).dedup
  (df1, unique_categories.enum.map (fun p => (p.1 + 1, p.2)))

/-- Row of Dim_Date (the locale-dependent `day_name`/`month_name` strings
are omitted; no claim mentions them). -/
structure DateRowP where
  date_key : Nat
  full_date : Date
  year : Nat
  month : Nat
  day : Nat
  day_of_week : Nat
  quarter : Nat
  is_weekend : Bool
deriving DecidableEq, Repr

/-- Modelled library function: `pd.to_datetime` on a column without
`errors='coerce'` — the first malformed value raises, so the whole
computation is an `Except` with the offending string as the error. -/
def to_datetime_strict (ss : List String) : Except String (List Date) :=
  ss.mapM (fun s =>
    match parseDate s with
    | some d => Except.ok d
    | none => Except.error s)

/-- Dim_Date: review dates parsed strictly (a malformed review date raises),
checkin dates exploded on `", "` and parsed with `errors='coerce'` (malformed
elements dropped); concatenate, drop nulls, deduplicate, sort, then derive
the attributes.  `day_of_week` uses the pandas convention Monday = 0. -/
def create_dim_date (rs : List Review) (cs : List Checkin) : Except String (List DateRowP) := do
  let review_dates ← to_datetime_strict (rs.map Review.date)
  let checkin_dates := cs.flatMap (fun c => (splitCommaSpace c.date).map parseDate)
  let all_dates := ((review_dates.map some ++ checkin_dates).filterMap id).dedup
  let sorted := List.insertionSort dateLE all_dates
  Except.ok (sorted.map (fun d =>
    { date_key := dateId d, full_date := d, year := d.year, month := d.month, day := d.day,
      day_of_week := (dayOfWeekSun1 d + 5) % 7, quarter := quarterOfMonth d.month,
      is_weekend := [5, 6].contains ((dayOfWeekSun1 d + 5) % 7) }))

/-- Row of Dim_Business. -/
structure DimBusRow where
  business_key : Nat
  business_nk : String
  name : String
  address : String
  location_key : Option Nat
  stars : Rat
  review_count : Nat
  is_open : Nat
deriving DecidableEq, Repr

/-- Dim_Business: left-merge the business frame with Dim_Location on the
five natural attributes (location rows are deduplicated, so the merge is a
lookup that preserves row order), then assign `business_key = range(1, n+1)`
by row position.  The `review_count` column is the raw source attribute,
carried through unchanged. -/
def create_dim_business (df : List Business) (df_location : List LocRow) : List DimBusRow :=
  df.enum.map (fun p =>
    let b := p.2
    let loc := df_location.find? (fun l =>
      l.city == b.city && l.state == b.state && l.postal_code == b.postal_code &&
        l.latitude == b.latitude && l.longitude == b.longitude)
    { business_key := p.1 + 1, business_nk := b.business_id, name := b.name,
      address := b.address, location_key := loc.map LocRow.location_key, stars := b.stars,
      review_count := b.review_count, is_open := b.is_open })

/-- Fact_Business_Categories: explode the (fillna-mutated) category strings,
drop empty tokens, map both natural keys through the dimension key maps
(first match; natural keys are unique in practice), drop rows where either
mapping failed, deduplicate. -/
def create_fact_business_categories (df : List Business) (df_category : List (Nat × String))
    (df_dim_business : List DimBusRow) : List (Nat × Nat) :=
  let exploded := (df.flatMap (fun b =>
    (splitCommaSpace (b.categories.getD "")).map (fun c => (b.business_id, c)))).filter
      (fun p => p.2 != "")
  (exploded.filterMap (fun p =>
    match (df_dim_business.find? (fun r => r.business_nk == p.1)).map DimBusRow.business_key,
      (df_category.find? (fun c => c.2 == p.2)).map Prod.fst with
    | some bk, some ck => some (bk, ck)
    | _, _ => none)).dedup

/-- Row of Fact_Business_Performance (daily granularity). -/
structure FactPerfRow where
  performance_key : Nat
  business_key : Nat
  date_key : Nat
  review_count : Nat
  average_stars : Rat
  checkin_count : Nat
deriving DecidableEq, Repr

/-- Fact_Business_Performance: reviews are dated with strict parsing (a
malformed review date raises), keyed through the business and date key maps
with failed mappings dropped, and aggregated by (business_key, date_key);
checkins are exploded and coerce-parsed, keyed and aggregated likewise; the
two aggregates are outer-merged on the key pair with missing counts and
stars filled with 0, and `performance_key = range(1, n+1)` is assigned. -/
def create_fact_business_performance (rs : List Review) (cs : List Checkin)
    (dimB : List DimBusRow) (dimD : List DateRowP) : Except String (List FactPerfRow) := do
  let rdates ← to_datetime_strict (rs.map Review.date)
  let bkey := fun nk => (dimB.find? (fun r => r.business_nk == nk)).map DimBusRow.business_key
  let dkey := fun d => (dimD.find? (fun r => r.full_date == d)).map DateRowP.date_key
  let df_rev := (rs.zip rdates).filterMap (fun p =>
    match bkey p.1.business_id, dkey p.2 with
    | some bk, some dk => some ((bk, dk), p.1.stars)
    | _, _ => none)
  let review_agg := ((df_rev.map Prod.fst).dedup).map (fun k =>
    (k, ((df_rev.filter (fun t => t.1 == k)).length,
      ratAvg ((df_rev.filter (fun t => t.1 == k)).map Prod.snd))))
  let chk := cs.flatMap (fun c => (splitCommaSpace c.date).filterMap (fun t =>
    (parseDate t).map (fun d => (c.business_id, d))))
  let df_chk := chk.filterMap (fun p =>
    match bkey p.1, dkey p.2 with
    | some bk, some dk => some (bk, dk)
    | _, _ => none)
  let checkin_agg := groupCount df_chk
  let keys := ((review_agg.map Prod.fst) ++ (checkin_agg.map Prod.fst)).dedup
  Except.ok (keys.enum.map (fun p =>
    let k := p.2
    let r := review_agg.find? (fun q => q.1 == k)
    let c := checkin_agg.find? (fun q => q.1 == k)
    { performance_key := p.1 + 1, business_key := k.1, date_key := k.2,
      review_count := (r.map (fun q => q.2.1)).getD 0,
      average_stars := (r.map (fun q => q.2.2)).getD 0,
      checkin_count := (c.map Prod.snd).getD 0 }))

/-- Output tables of one run. -/
structure MainOut where
  dim_location : List LocRow
  dim_category : List (Nat × String)
  dim_date : List DateRowP
  dim_business : List DimBusRow
  fact_business_categories : List (Nat × Nat)
  fact_business_performance : List FactPerfRow
deriving DecidableEq, Repr

/-- Main sequence of the investors run: Dim_Location is built from the raw
frame, the Dim_Category builder mutates the business frame, and every
builder after it receives the mutated frame. -/
def investors_main (bs : List Business) (rs : List Review) (cs : List Checkin) :
    Except String MainOut := do
  let dim_location := create_dim_location bs
  let p := create_dim_category_st bs
  let dim_date ← create_dim_date rs cs
  let dim_business := create_dim_business p.1 dim_location
  let fact_business_categories := create_fact_business_categories p.1 p.2 dim_business
  let fact_business_performance ← create_fact_business_performance rs cs dim_business dim_date
  Except.ok ⟨dim_location, p.2, dim_date, dim_business, fact_business_categories,
    fact_business_performance⟩

end Inv

namespace Mkt

/-
Embedding of ETL/marketingETL.py (Spark variant).  Only the columns consumed
by the embedded tables are carried; DimUser and DimBusiness contribute only
their key column to the engagement fact, so their remaining attribute
columns (compliment sums, locations, JSON attributes) are omitted.
-/

/-- Raw review record with the vote columns; `date` is the raw timestamp
string, parsed by `to_timestamp` (null on malformed). -/
structure Review where
  review_id : String
  user_id : String
  business_id : String
  stars : Rat
  useful : Int
  funny : Int
  cool : Int
  date : String
deriving DecidableEq, Repr

/-- Raw tip record. -/
structure Tip where
  user_id : String
  business_id : String
  date : String
deriving DecidableEq, Repr

/-- Raw checkin record. -/
structure Checkin where
  business_id : String
  date : String
deriving DecidableEq, Repr

/-- Raw user record (key column plus name; the other DimUser attributes
play no role in any claim). -/
structure User where
  user_id : String
  name : String
deriving DecidableEq, Repr

/-- Raw business record (columns consumed by DimBusiness as embedded). -/
structure Business where
  business_id : String
  name : String
  categories : Option String
deriving DecidableEq, Repr

/-- Row of DimBusiness: the category string split on `,\s*` into an array
(null stays null). -/
structure DimBusiness where
  business_id : String
  name : String
  categories : Option (List String)
deriving DecidableEq, Repr

/-- DimBusiness. -/
def dim_business (bs : List Business) : List DimBusiness :=
  bs.map (fun b => ⟨b.business_id, b.name, b.categories.map splitCommaWs⟩)

/-- Key column of DimUser consumed by the engagement fact: one user_id per
user record. -/
def dim_user_ids (us : List User) : List String := us.map User.user_id

/-- Parsed review timestamps, kept nullable. -/
def review_ts (rs : List Review) : List (Option Date) := rs.map (fun r => parseDate r.date)

/-- Parsed tip timestamps, kept nullable. -/
def tip_ts (ts : List Tip) : List (Option Date) := ts.map (fun t => parseDate t.date)

/-- Exploded checkin timestamps (split on `,\s*`), parsed, kept nullable. -/
def checkin_ts (cs : List Checkin) : List (Option Date) :=
  cs.flatMap (fun c => (splitCommaWs c.date).map parseDate)

/-- Distinct calendar dates over the three sources, nulls dropped. -/
def distinct_dates (rs : List Review) (ts : List Tip) (cs : List Checkin) : List Date :=
  ((review_ts rs ++ tip_ts ts ++ checkin_ts cs).dedup).filterMap id

/-- The `date_id` column of DimDate (`yyyyMMdd` as int), ordered by id. -/
def dim_date_ids (rs : List Review) (ts : List Tip) (cs : List Checkin) : List Nat :=
  List.insertionSort (fun a b => a ≤ b) ((distinct_dates rs ts cs).map dateId)

/-- Tip counts per (user_id, business_id). -/
def tip_counts (ts : List Tip) : List ((String × String) × Nat) :=
  groupCount (ts.map (fun t => (t.user_id, t.business_id)))

/-- Checkin counts: one row per checkin record, carrying the SIZE of the
split date array (elements are counted without being parsed or
validated). -/
def checkin_counts_agg (cs : List Checkin) : List (String × Nat) :=
  cs.map (fun c => (c.business_id, (splitCommaWs c.date).length))

/-- Base fact row drawn from a review; `date_id` is nullable because the
timestamp parse can fail, and `stars` is cast to int (truncation; stars are
non-negative, so this is the floor). -/
structure FactBase where
  review_id : String
  user_id : String
  business_id : String
  date_id : Option Nat
  stars : Int
  useful_votes : Int
  funny_votes : Int
  cool_votes : Int
deriving DecidableEq, Repr

/-- Base fact data from reviews. -/
def fact_base (rs : List Review) : List FactBase :=
  rs.map (fun r => ⟨r.review_id, r.user_id, r.business_id, (parseDate r.date).map dateId,
    r.stars.floor, r.useful, r.funny, r.cool⟩)

/-- Row of FactCustomerEngagement. -/
structure FactEng where
  review_id : String
  user_id : String
  business_id : String
  date_id : Nat
  stars : Int
  useful_votes : Int
  funny_votes : Int
  cool_votes : Int
  tip_count : Nat
  checkin_count : Nat
deriving DecidableEq, Repr

/-- FactCustomerEngagement: left join the review base with the tip and
checkin aggregates, inner join with the key columns of DimDate, DimUser and
DimBusiness, then select, coalescing the two left-joined counts to 0. -/
def fact_customer_engagement (rs : List Review) (ts : List Tip) (cs : List Checkin)
    (us : List User) (bs : List Business) : List FactEng :=
  let j1 := leftJoin (fact_base rs) (tip_counts ts)
    (fun r t => t.1.1 == r.user_id && t.1.2 == r.business_id)
  let j2 := leftJoin j1 (checkin_counts_agg cs) (fun p c => c.1 == p.1.business_id)
  let j3 := innerJoin j2 (dim_date_ids rs ts cs) (fun p i => p.1.1.date_id == some i)
  let j4 := innerJoin j3 (dim_user_ids us) (fun p u => p.1.1.1.user_id == u)
  let j5 := innerJoin j4 ((dim_business bs).map DimBusiness.business_id)
    (fun p b => p.1.1.1.1.business_id == b)
  j5.map (fun p =>
    match p with
    | (((((r, tc), cc), did), _), _) =>
      { review_id := r.review_id, user_id := r.user_id, business_id := r.business_id,
        date_id := did, stars := r.stars, useful_votes := r.useful_votes,
        funny_votes := r.funny_votes, cool_votes := r.cool_votes,
        tip_count := (tc.map Prod.snd).getD 0,
        checkin_count := (cc.map Prod.snd).getD 0 })

/-- BusinessCategoryBridge: DimBusiness with the category array exploded
(a null array explodes to no rows), keeping only non-empty names.  There is
no deduplication and no filter of the literal "null" here. -/
def bridge_business_category (bs : List Business) : List (String × String) :=
  (dim_business bs).flatMap (fun d =>
    ((d.categories.getD []).map (fun c => (d.business_id, c))).filter (fun p => p.2 != ""))

end Mkt

/-
Concrete inputs used by witness and counterexample theorems.
-/

/-- One review dated 2020-01-15 for business b1. -/
def wReview1 : BO.Review := ⟨"r1", "u1", "b1", 5, "2020-01-15 10:00:00"⟩

/-- One checkin record for business b2 with two valid timestamps. -/
def wCheckin1 : BO.Checkin := ⟨"b2", "2018-01-01 10:00:00, 2018-01-02 11:00:00"⟩

/-- The monthly fact row produced for business b1 from `wReview1` alone. -/
def wFactC1 : BO.FactRow := ⟨"b1", 2020, 1, 1, 0, 0⟩

/-- Fact row with 10 reviews in 2020-01. -/
def wFactRowA : BO.FactRow := ⟨"b1", 2020, 1, 10, 0, 0⟩

/-- Fact row with 15 reviews in 2020-02. -/
def wFactRowB : BO.FactRow := ⟨"b1", 2020, 2, 15, 0, 0⟩

/-- Two consecutive active months with review counts 10 and 15. -/
def wFactRows : List BO.FactRow := [wFactRowA, wFactRowB]

/-- Business with a single category and no reviews. -/
def wBizBO : BO.Business := ⟨"b1", "Biz", some "Food", 1⟩

/-- The Dim_Business row produced for `wBizBO` with an empty review table. -/
def wRowBO : BO.DimBusinessRow := ⟨"b1", "Biz", none, true, none, 0⟩

/-- Business with two categories. -/
def wC4bs : List BO.Business := [⟨"b1", "Biz", some "Food, Coffee", 1⟩]

/-- The expected Dim_Date row for 2020-01-15 (a Wednesday). -/
def wDimDateRow : BO.DimDateRow := ⟨20200115, ⟨2020, 1, 15⟩, 1, 2020, 1, false⟩

/-- Business whose raw category string lists the same category twice. -/
def wDupCatBiz : Mkt.Business := ⟨"b1", "Biz", some "Food, Food"⟩

/-- Business whose raw category string has a pre-comma space. -/
def wSpaceCatBiz : BO.Business := ⟨"b5", "Biz", some "Food , Bars", 1⟩

/-- Investors-variant business whose category string contains the literal
token "null". -/
def wNullCatBiz : Inv.Business :=
  ⟨"b5", "Biz", "addr", "c", "s", "p", 0, 0, 3, 2, 1, some "null, Food"⟩

/-- Investors-variant business whose raw `review_count` attribute is 5. -/
def wBiz6 : Inv.Business := ⟨"b1", "Biz", "addr", "c", "s", "p", 0, 0, 4, 5, 1, some "Food"⟩

/-- Investors-variant business with a null category string. -/
def wBizC10 : Inv.Business := ⟨"b2", "Biz2", "addr", "c", "s", "p", 0, 0, 3, 2, 1, none⟩

/-- Investors-variant Dim_Business row for the bridge witness. -/
def wDimBusRowInv : Inv.DimBusRow := ⟨1, "b1", "Biz", "addr", some 1, 4, 5, 1⟩

/-- Investors-variant Dim_Category for the bridge witness. -/
def wCatDimInv : List (Nat × String) := [(1, "Food")]

/-- Investors-variant review with a malformed date string. -/
def wBadReview : Inv.Review := ⟨"r1", "b1", "garbage", 5⟩

/-- Marketing review dated 2020-01-15. -/
def wMRev : Mkt.Review := ⟨"r1", "u1", "b1", 4, 1, 0, 0, "2020-01-15 10:00:00"⟩

/-- Marketing user for the engagement fact. -/
def wMUser : Mkt.User := ⟨"u1", "Ann"⟩

/-- Marketing business for the engagement fact. -/
def wMBiz : Mkt.Business := ⟨"b1", "Biz", some "Food"⟩

/-
General lemmas.
-/

theorem parseDate_valid {s : String} {d : Date} (h : parseDate s = some d) : d.valid := by
  unfold parseDate at h
  repeat' split at h
  all_goals try simp_all [Date.valid]
  subst h
  assumption

theorem decode_dateId {d : Date} (h : d.valid) : decodeDateId (dateId d) = d := by
  obtain ⟨h1, h2, h3, h4⟩ := h
  cases d
  unfold decodeDateId dateId
  simp only [Date.mk.injEq]
  refine ⟨?_, ?_, ?_⟩ <;> · simp only at h1 h2 h3 h4 ⊢; omega

theorem beq_eq_decide_eq {α : Type} [BEq α] [LawfulBEq α] [DecidableEq α] (a b : α) :
    (a == b) = decide (a = b) := by
  by_cases h : a = b <;> simp [h]

theorem find?_keyed_map {K β : Type} [DecidableEq K] (m : List K) (f : K → β)
    (q : K × β → Bool) (k : K) (hq : ∀ x, q (x, f x) = decide (x = k)) (hm : m.Nodup) :
    (m.map (fun x => (x, f x))).find? q = if k ∈ m then some (k, f k) else none := by
  induction m with
  | nil => simp
  | cons x xs ih =>
    rcases List.nodup_cons.mp hm with ⟨_, hxs⟩
    rw [List.map_cons]
    by_cases hxk : x = k
    · subst hxk
      rw [List.find?_cons_of_pos _ (by simp [hq x])]
      simp
    · rw [List.find?_cons_of_neg _ (by simp [hq x, hxk]), ih hxs]
      by_cases hk : k ∈ xs
      · simp [hk, List.mem_cons]
      · simp [hk, List.mem_cons, Ne.symm hxk]

theorem lookup_groupCount {K : Type} [DecidableEq K] (l : List K)
    (q : K × Nat → Bool) (k : K)
    (hq : ∀ x, q (x, l.countP (fun e => decide (e = x))) = decide (x = k)) :
    ((((groupCount l).find? q).map Prod.snd).getD 0) = l.countP (fun e => decide (e = k)) := by
  unfold groupCount
  rw [find?_keyed_map l.dedup (fun x => l.countP (fun e => decide (e = x))) q k hq
    (List.nodup_dedup l)]
  by_cases h : k ∈ l.dedup
  · simp [h]
  · have hk : k ∉ l := by simpa [List.mem_dedup] using h
    have h0 : l.countP (fun e => decide (e = k)) = 0 :=
      List.countP_eq_zero.mpr (fun a ha => by simp; rintro rfl; exact hk ha)
    simp [h, h0]

theorem map_fst_groupCount {K : Type} [DecidableEq K] (l : List K) :
    (groupCount l).map Prod.fst = l.dedup := by
  unfold groupCount
  rw [List.map_map]
  exact List.map_id _

theorem mem_all_dates (rs : List BO.Review) (ts : List BO.Tip) (cs : List BO.Checkin)
    (d : Date) :
    d ∈ BO.all_dates rs ts cs ↔
      (some d ∈ BO.review_dates rs ∨ some d ∈ BO.tip_dates ts ∨
        some d ∈ BO.checkin_dates cs) := by
  unfold BO.all_dates
  simp [List.mem_filterMap, List.mem_dedup, List.mem_append, or_assoc, id]

theorem all_dates_nodup (rs : List BO.Review) (ts : List BO.Tip) (cs : List BO.Checkin) :
    (BO.all_dates rs ts cs).Nodup := by
  unfold BO.all_dates
  refine List.Nodup.filterMap ?_ (List.nodup_dedup _)
  intro a a' b hb hb'
  simp only [id, Option.mem_def] at hb hb'
  rw [hb, hb']

theorem all_dates_valid (rs : List BO.Review) (ts : List BO.Tip) (cs : List BO.Checkin)
    (d : Date) (h : d ∈ BO.all_dates rs ts cs) : d.valid := by
  rw [mem_all_dates] at h
  unfold BO.review_dates BO.tip_dates BO.checkin_dates at h
  rcases h with h | h | h
  · rcases List.mem_map.mp h with ⟨r, _, hr⟩
    exact parseDate_valid hr
  · rcases List.mem_map.mp h with ⟨t, _, ht⟩
    exact parseDate_valid ht
  · rcases List.mem_flatMap.mp h with ⟨c, _, hc⟩
    rcases List.mem_map.mp hc with ⟨t, _, ht⟩
    exact parseDate_valid ht

theorem dim_date_map_date (rs : List BO.Review) (ts : List BO.Tip) (cs : List BO.Checkin) :
    (BO.dim_date rs ts cs).map BO.DimDateRow.date = BO.all_dates rs ts cs := by
  unfold BO.dim_date
  rw [List.map_map]
  exact List.map_id _

/-- C3: for every calendar date occurring in any source — review dates, tip
dates, and each individually exploded checkin timestamp, truncated to
calendar dates with invalid parses discarded — Dim_Date contains exactly one
row for that date (distinct dates, distinct ids), and decoding the
`yyyyMMdd` date id of any row recovers exactly the calendar date it was
derived from. -/
theorem C3_date_dim_unique_roundtrip (rs : List BO.Review) (ts : List BO.Tip)
    (cs : List BO.Checkin) :
    (((BO.dim_date rs ts cs).map BO.DimDateRow.date).Nodup) ∧
    (((BO.dim_date rs ts cs).map BO.DimDateRow.date_id).Nodup) ∧
    (∀ d : Date,
      d ∈ (BO.dim_date rs ts cs).map BO.DimDateRow.date ↔
        (some d ∈ BO.review_dates rs ∨ some d ∈ BO.tip_dates ts ∨
          some d ∈ BO.checkin_dates cs)) ∧
    (∀ row ∈ BO.dim_date rs ts cs, decodeDateId row.date_id = row.date) := by
  refine ⟨?_, ?_, ?_, ?_⟩
  · rw [dim_date_map_date]
    exact all_dates_nodup rs ts cs
  · have hmap : (BO.dim_date rs ts cs).map BO.DimDateRow.date_id =
        (BO.all_dates rs ts cs).map dateId := by
      unfold BO.dim_date
      rw [List.map_map]
      rfl
    rw [hmap]
    refine List.Nodup.map_on ?_ (all_dates_nodup rs ts cs)
    intro x hx y hy hxy
    have := congrArg decodeDateId hxy
    rwa [decode_dateId (all_dates_valid rs ts cs x hx),
      decode_dateId (all_dates_valid rs ts cs y hy)] at this
  · intro d
    rw [dim_date_map_date]
    exact mem_all_dates rs ts cs d
  · intro row hrow
    unfold BO.dim_date at hrow
    rcases List.mem_map.mp hrow with ⟨d, hd, rfl⟩
    exact decode_dateId (all_dates_valid rs ts cs d hd)

theorem C3_date_dim_witness :
    (wDimDateRow ∈ BO.dim_date [wReview1] [] [wCheckin1]) ∧
    decodeDateId wDimDateRow.date_id = wDimDateRow.date :=
  ⟨by decide,
    (C3_date_dim_unique_roundtrip [wReview1] [] [wCheckin1]).2.2.2 wDimDateRow (by decide)⟩

/-- C7: in every row of the final monthly fact table the engagement score is
the fixed weighted sum review_count × 1.0 + tip_count × 0.5 +
checkin_count × 0.2 plus the reserved photo term, which is always zero; in
particular a month with 4 reviews, 2 tips and 5 checkins scores exactly 6. -/
theorem C7_engagement_score_formula (rs : List BO.Review) (cs : List BO.Checkin)
    (ts : List BO.Tip) (b : String) :
    (BO.fact_table_final_monthly rs cs ts b =
      (BO.fact_table_with_growth (BO.fact_table_monthly_joined rs cs ts) b).map
        (fun p => (p.1, p.2,
          BO.engagement_score p.1.review_count p.1.tip_count p.1.checkin_count))) ∧
    (∀ r t c : Nat, BO.engagement_score r t c =
      (r : Rat) * 1 + (t : Rat) * (1/2) + (c : Rat) * (1/5) + BO.photo_count_monthly * (1/4)) ∧
    BO.photo_count_monthly = 0 ∧
    BO.engagement_score 4 2 5 = 6 := by
  refine ⟨rfl, ?_, rfl, ?_⟩
  · intro r t c
    unfold BO.engagement_score
    ring
  · unfold BO.engagement_score BO.photo_count_monthly
    norm_num

theorem addLag_map_fst (p : Option Nat) (l : List BO.FactRow) :
    (BO.addLag p l).map Prod.fst = l := by
  induction l generalizing p with
  | nil => rfl
  | cons x xs ih => simp [BO.addLag, ih]

theorem addLag_get?_zero (p : Option Nat) (l : List BO.FactRow) (r : BO.FactRow)
    (g : Option Nat) (h : (BO.addLag p l).get? 0 = some (r, g)) : g = p := by
  cases l with
  | nil => simp [BO.addLag] at h
  | cons x xs =>
    simp [BO.addLag] at h
    exact h.2.symm

theorem addLag_get?_succ (p : Option Nat) (l : List BO.FactRow) (i : Nat)
    (r1 r2 : BO.FactRow) (g1 g2 : Option Nat)
    (h1 : (BO.addLag p l).get? i = some (r1, g1))
    (h2 : (BO.addLag p l).get? (i + 1) = some (r2, g2)) :
    g2 = some r1.review_count := by
  induction l generalizing p i with
  | nil => simp [BO.addLag] at h1
  | cons x xs ih =>
    cases i with
    | zero =>
      have hx : r1 = x := by
        simp [BO.addLag] at h1
        exact h1.1.symm
      subst hx
      exact addLag_get?_zero _ _ _ _ (by simpa [BO.addLag] using h2)
    | succ j =>
      exact ih (some x.review_count) j (by simpa [BO.addLag] using h1)
        (by simpa [BO.addLag] using h2)

/-- C2: with each entity partition ordered by (year, month), the first row
has null growth rate; every later row has growth rate null when the
previous row has review count 0, and otherwise exactly
(current − previous) / previous; counts 10 then 15 in consecutive months
give exactly 1/2. -/
theorem C2_growth_rate_window (rows : List BO.FactRow) (b : String) :
    ((BO.fact_table_with_growth rows b).map Prod.fst =
      List.insertionSort BO.ymLE (rows.filter (fun r => r.business_id == b))) ∧
    (∀ r g, (BO.fact_table_with_growth rows b).get? 0 = some (r, g) → g = none) ∧
    (∀ i r1 g1 r2 g2,
      (BO.fact_table_with_growth rows b).get? i = some (r1, g1) →
      (BO.fact_table_with_growth rows b).get? (i + 1) = some (r2, g2) →
      g2 = if r1.review_count = 0 then none
        else some (((r2.review_count : Rat) - (r1.review_count : Rat)) /
          (r1.review_count : Rat))) ∧
    BO.review_growth_rate 15 (some 10) = some (1/2 : Rat) := by
  refine ⟨?_, ?_, ?_, ?_⟩
  · unfold BO.fact_table_with_growth
    rw [List.map_map]
    exact addLag_map_fst none _
  · intro r g h
    unfold BO.fact_table_with_growth at h
    rw [List.get?_map] at h
    obtain ⟨pr, hpr, heq⟩ := Option.map_eq_some'.mp h
    have h2 : pr.2 = none := addLag_get?_zero none _ pr.1 pr.2 hpr
    have hg : g = BO.review_growth_rate pr.1.review_count pr.2 :=
      (congrArg Prod.snd heq).symm
    rw [hg, h2]
    rfl
  · intro i r1 g1 r2 g2 h1 h2
    unfold BO.fact_table_with_growth at h1 h2
    rw [List.get?_map] at h1 h2
    obtain ⟨p1, hp1, he1⟩ := Option.map_eq_some'.mp h1
    obtain ⟨p2, hp2, he2⟩ := Option.map_eq_some'.mp h2
    have hlag : p2.2 = some p1.1.review_count := addLag_get?_succ none _ i p1.1 p2.1 p1.2 p2.2 hp1 hp2
    have hr1 : r1 = p1.1 := (congrArg Prod.fst he1).symm
    have hr2 : r2 = p2.1 := (congrArg Prod.fst he2).symm
    have hg2 : g2 = BO.review_growth_rate p2.1.review_count p2.2 :=
      (congrArg Prod.snd he2).symm
    rw [hg2, hlag, hr1, hr2]
    simp [BO.review_growth_rate]
  · unfold BO.review_growth_rate
    norm_num

theorem C2_growth_rate_witness :
    BO.review_growth_rate wFactRowB.review_count (some wFactRowA.review_count) =
      (if wFactRowA.review_count = 0 then none
        else some (((wFactRowB.review_count : Rat) - (wFactRowA.review_count : Rat)) /
          (wFactRowA.review_count : Rat))) :=
  (C2_growth_rate_window wFactRows "b1").2.2.1 0 wFactRowA none wFactRowB
    (BO.review_growth_rate wFactRowB.review_count (some wFactRowA.review_count))
    (by rfl) (by rfl)

/-- C9: the derived subcategory equals the second element of the comma-split
category array exactly when the array has more than one element and that
second element is non-empty and not the literal "null" (and the subcategory
column of the base entity table is this function of the raw category
string).  This corrects the claimed precondition "at least two non-empty,
non-null elements", which the code refutes at the input "Food,,Bars". -/
theorem C9_subcategory_rule (s : String) :
    (∀ h : 1 < (splitCommaWs s).length,
      BO.subcategoryOf (some s) =
        if (splitCommaWs s).get ⟨1, h⟩ ≠ "" ∧ (splitCommaWs s).get ⟨1, h⟩ ≠ "null"
          then some ((splitCommaWs s).get ⟨1, h⟩) else none) ∧
    ((splitCommaWs s).length ≤ 1 → BO.subcategoryOf (some s) = none) ∧
    BO.subcategoryOf none = none ∧
    (∀ bs : List BO.Business,
      (BO.business_base_info bs).map BO.BaseInfoRow.subcategory =
        bs.map (fun b => BO.subcategoryOf b.categories)) := by
  refine ⟨?_, ?_, rfl, ?_⟩
  · intro h
    show (if h : 1 < (splitCommaWs s).length then
        if (splitCommaWs s).get ⟨1, h⟩ ≠ "" ∧ (splitCommaWs s).get ⟨1, h⟩ ≠ "null"
          then some ((splitCommaWs s).get ⟨1, h⟩) else none
      else none) = _
    rw [dif_pos h]
  · intro h
    show (if h : 1 < (splitCommaWs s).length then
        if (splitCommaWs s).get ⟨1, h⟩ ≠ "" ∧ (splitCommaWs s).get ⟨1, h⟩ ≠ "null"
          then some ((splitCommaWs s).get ⟨1, h⟩) else none
      else none) = none
    rw [dif_neg (by omega : ¬ 1 < (splitCommaWs s).length)]
  · intro bs
    unfold BO.business_base_info
    rw [List.map_map]
    rfl

/-- C9 counterexample: at the raw category string "Food,,Bars" the split has
at least two non-empty non-"null" elements ("Food" and "Bars"), its second
element is the empty string, and the code derives no subcategory — while the
claim as stated requires the subcategory to equal that second element. -/
theorem C9_subcategory_cex :
    2 ≤ ((splitCommaWs "Food,,Bars").filter (fun x => x != "" && x != "null")).length ∧
    (splitCommaWs "Food,,Bars").get? 1 = some "" ∧
    BO.subcategoryOf (some "Food,,Bars") = none := by decide

theorem C9_subcategory_witness :
    BO.subcategoryOf (some "Food, Coffee") =
      if (splitCommaWs "Food, Coffee").get ⟨1, by decide⟩ ≠ "" ∧
          (splitCommaWs "Food, Coffee").get ⟨1, by decide⟩ ≠ "null"
        then some ((splitCommaWs "Food, Coffee").get ⟨1, by decide⟩) else none :=
  (C9_subcategory_rule "Food, Coffee").1 (by decide)

theorem keyMatch_eq_decide (x : BO.YMKey) (b : String) (y m : Nat) :
    BO.keyMatch x (b, some y, some m) = decide (x = (b, some y, some m)) := by
  rcases x with ⟨xb, xy, xm⟩
  rcases xy with _ | ya <;> rcases xm with _ | ma <;>
    simp [BO.keyMatch, Prod.ext_iff, beq_eq_decide_eq, Bool.and_assoc]

theorem lookupAgg_groupCount (l : List BO.YMKey) (b : String) (y m : Nat) :
    (BO.lookupAgg (groupCount l) (b, some y, some m)).getD 0 =
      l.countP (fun e => decide (e = (b, some y, some m))) := by
  unfold BO.lookupAgg
  exact lookup_groupCount l (fun p => BO.keyMatch p.1 (b, some y, some m)) (b, some y, some m)
    (fun x => keyMatch_eq_decide x b y m)

theorem mem_base_facts (rs : List BO.Review) (cs : List BO.Checkin) (ts : List BO.Tip)
    (k : BO.YMKey) :
    k ∈ BO.base_facts_monthly rs cs ts ↔
      (k ∈ BO.reviewYM rs ∨ k ∈ BO.checkinYM cs ∨ k ∈ BO.tipYM ts) := by
  unfold BO.base_facts_monthly BO.review_agg_monthly BO.checkin_agg_monthly BO.tip_agg_monthly
  rw [List.mem_dedup, List.mem_append, List.mem_append, map_fst_groupCount,
    map_fst_groupCount, map_fst_groupCount, List.mem_dedup, List.mem_dedup, List.mem_dedup,
    or_assoc]

theorem base_ym_linked (rs : List BO.Review) (cs : List BO.Checkin) (ts : List BO.Tip)
    (k : BO.YMKey) (h : k ∈ BO.base_facts_monthly rs cs ts) :
    (k.2.1 = none ↔ k.2.2 = none) := by
  rw [mem_base_facts] at h
  unfold BO.reviewYM BO.checkinYM BO.tipYM at h
  rcases h with h | h | h
  · rcases List.mem_map.mp h with ⟨r, _, rfl⟩
    cases parseDate r.date <;> simp
  · rcases List.mem_flatMap.mp h with ⟨c, _, hc⟩
    rcases List.mem_filterMap.mp hc with ⟨t, _, ht⟩
    rcases Option.map_eq_some'.mp ht with ⟨d, _, rfl⟩
    simp
  · rcases List.mem_map.mp h with ⟨t, _, rfl⟩
    cases parseDate t.date <;> simp

/-- C1: for every entity and calendar month, the monthly fact table has a
row keyed (entity, year, month) exactly when the entity has at least one
review, one exploded checkin timestamp, or one tip dated in that month
(union, not intersection of the three aggregates); and in every such row
the three counts each equal that month's event count from their source,
with 0 when that source had no activity that month. -/
theorem C1_monthly_fact_keyspace_and_counts (rs : List BO.Review) (cs : List BO.Checkin)
    (ts : List BO.Tip) :
    (∀ b y m, 1 ≤ m → m ≤ 12 →
      (((b, y, m) ∈ (BO.fact_table_monthly_joined rs cs ts).map
          (fun row => (row.business_id, row.year, row.month))) ↔
        ((b, some y, some m) ∈ BO.reviewYM rs ∨ (b, some y, some m) ∈ BO.checkinYM cs ∨
          (b, some y, some m) ∈ BO.tipYM ts))) ∧
    (∀ row ∈ BO.fact_table_monthly_joined rs cs ts, 1 ≤ row.month → row.month ≤ 12 →
      (row.review_count = (BO.reviewYM rs).countP
          (fun e => decide (e = (row.business_id, some row.year, some row.month))) ∧
        row.checkin_count = (BO.checkinYM cs).countP
          (fun e => decide (e = (row.business_id, some row.year, some row.month))) ∧
        row.tip_count = (BO.tipYM ts).countP
          (fun e => decide (e = (row.business_id, some row.year, some row.month))))) := by
  constructor
  · intro b y m h1 h2
    constructor
    · intro hmem
      rcases List.mem_map.mp hmem with ⟨row, hrow, heq⟩
      unfold BO.fact_table_monthly_joined at hrow
      rcases List.mem_map.mp hrow with ⟨k, hk, rfl⟩
      rcases k with ⟨kb, ky, km⟩
      obtain ⟨hb, hy, hm⟩ : kb = b ∧ (ky.getD 0) = y ∧ (km.getD 0) = m := by
        simpa [Prod.ext_iff] using heq
      cases km with
      | none =>
        simp only [Option.getD_none] at hm
        omega
      | some mv =>
        cases ky with
        | none => exact absurd ((base_ym_linked rs cs ts _ hk).mp rfl) (by simp)
        | some yv =>
          simp only [Option.getD_some] at hy hm
          subst hb
          subst hy
          subst hm
          exact (mem_base_facts rs cs ts _).mp hk
    · intro hsrc
      have hk : ((b, some y, some m) : BO.YMKey) ∈ BO.base_facts_monthly rs cs ts :=
        (mem_base_facts rs cs ts _).mpr hsrc
      exact List.mem_map.mpr ⟨_, List.mem_map.mpr ⟨(b, some y, some m), hk, rfl⟩, rfl⟩
  · intro row hrow h1 h2
    unfold BO.fact_table_monthly_joined at hrow
    rcases List.mem_map.mp hrow with ⟨k, hk, rfl⟩
    rcases k with ⟨kb, ky, km⟩
    cases km with
    | none => simp at h1
    | some mv =>
      cases ky with
      | none => exact absurd ((base_ym_linked rs cs ts _ hk).mp rfl) (by simp)
      | some yv =>
        refine ⟨?_, ?_, ?_⟩
        · show (BO.lookupAgg (groupCount (BO.reviewYM rs)) (kb, some yv, some mv)).getD 0 = _
          exact lookupAgg_groupCount (BO.reviewYM rs) kb yv mv
        · show (BO.lookupAgg (groupCount (BO.checkinYM cs)) (kb, some yv, some mv)).getD 0 = _
          exact lookupAgg_groupCount (BO.checkinYM cs) kb yv mv
        · show (BO.lookupAgg (groupCount (BO.tipYM ts)) (kb, some yv, some mv)).getD 0 = _
          exact lookupAgg_groupCount (BO.tipYM ts) kb yv mv

theorem C1_monthly_fact_witness :
    (wFactC1 ∈ BO.fact_table_monthly_joined [wReview1] [wCheckin1] [] ∧
      1 ≤ wFactC1.month ∧ wFactC1.month ≤ 12) ∧
    (wFactC1.review_count = (BO.reviewYM [wReview1]).countP
        (fun e => decide (e = (wFactC1.business_id, some wFactC1.year, some wFactC1.month))) ∧
      wFactC1.checkin_count = (BO.checkinYM [wCheckin1]).countP
        (fun e => decide (e = (wFactC1.business_id, some wFactC1.year, some wFactC1.month))) ∧
      wFactC1.tip_count = (BO.tipYM []).countP
        (fun e => decide (e = (wFactC1.business_id, some wFactC1.year, some wFactC1.month)))) :=
  ⟨⟨by decide, by decide, by decide⟩,
    (C1_monthly_fact_keyspace_and_counts [wReview1] [wCheckin1] []).2 wFactC1 (by decide)
      (by decide) (by decide)⟩

theorem mem_dim_business_ids (bs : List BO.Business) (rs : List BO.Review) (b : BO.Business)
    (hb : b ∈ bs) :
    b.business_id ∈ (BO.dim_business bs rs).map BO.DimBusinessRow.business_id := by
  have h1 : (⟨b.business_id, b.name, b.is_open == 1, BO.subcategoryOf b.categories⟩ :
      BO.BaseInfoRow) ∈ BO.business_base_info bs := List.mem_map.mpr ⟨b, hb, rfl⟩
  unfold BO.dim_business
  exact List.mem_map.mpr ⟨_, List.mem_dedup.mpr (List.mem_map.mpr ⟨_, h1, rfl⟩), rfl⟩

/-- C6 (amended): in the Spark business-owners variant, the lifetime review
count of every Dim_Business row equals the number of review records bearing
that row's natural key, computed from the full review set — 0 (never null)
when there are none — and every business of the input still appears.  In
the investors variant the column is instead the raw source attribute
(see the counterexample). -/
theorem C6_lifetime_review_count (bs : List BO.Business) (rs : List BO.Review) :
    (∀ row ∈ BO.dim_business bs rs,
      row.overall_review_count = rs.countP (fun r => r.business_id == row.business_id)) ∧
    (∀ b ∈ bs, b.business_id ∈ (BO.dim_business bs rs).map BO.DimBusinessRow.business_id) := by
  constructor
  · intro row hrow
    unfold BO.dim_business at hrow
    rcases List.mem_map.mp (List.mem_dedup.mp hrow) with ⟨binfo, hbinfo, rfl⟩
    show (((BO.business_review_overall_stats rs).find?
      (fun p => p.1 == binfo.business_id)).map (fun p => p.2.2)).getD 0 = _
    unfold BO.business_review_overall_stats
    rw [find?_keyed_map ((rs.map BO.Review.business_id).dedup)
      (fun bid => (ratAvg ((rs.filter (fun r => r.business_id == bid)).map BO.Review.stars),
        rs.countP (fun r => r.business_id == bid)))
      (fun p => p.1 == binfo.business_id) binfo.business_id
      (fun x => beq_eq_decide_eq x binfo.business_id) (List.nodup_dedup _)]
    by_cases h : binfo.business_id ∈ (rs.map BO.Review.business_id).dedup
    · simp [h]
    · have h0 : rs.countP (fun r => r.business_id == binfo.business_id) = 0 := by
        refine List.countP_eq_zero.mpr ?_
        intro r hr
        simp only [beq_iff_eq]
        intro he
        exact absurd (by rw [List.mem_dedup]; exact List.mem_map.mpr ⟨r, hr, he⟩) h
      simp [h, h0]
  · intro b hb
    exact mem_dim_business_ids bs rs b hb

/-- C6 counterexample: the investors variant carries the raw source
attribute as the dimension's review count; with one business whose raw
attribute is 5 and an empty review table, Dim_Business reports 5 although
no review record bears the natural key. -/
theorem C6_review_count_cex :
    ((Inv.investors_main [wBiz6] [] []).toOption.map
      (fun o => o.dim_business.map Inv.DimBusRow.review_count)) = some [5] ∧
    (([] : List Inv.Review).countP (fun r => r.business_id == "b1")) = 0 :=
  ⟨rfl, rfl⟩

theorem C6_lifetime_review_count_witness :
    (wRowBO ∈ BO.dim_business [wBizBO] [] ∧ wBizBO ∈ [wBizBO]) ∧
    (wRowBO.overall_review_count =
        List.countP (fun r => r.business_id == wRowBO.business_id) ([] : List BO.Review) ∧
      wBizBO.business_id ∈ (BO.dim_business [wBizBO] []).map BO.DimBusinessRow.business_id) :=
  ⟨⟨by decide, by decide⟩,
    ⟨(C6_lifetime_review_count [wBizBO] []).1 wRowBO (by decide),
      (C6_lifetime_review_count [wBizBO] []).2 wBizBO (by decide)⟩⟩

/-- C4 (amended): in the Spark business-owners variant and in the investors
variant the category bridge has no duplicate (entity, category) pairs,
every category key references a Dim_Category row and every entity
references a Dim_Business row, by construction (the investors builder drops
any exploded pair whose key mapping fails, for arbitrary dimension inputs).
The optional marketing-variant bridge, however, is not deduplicated (see
the counterexample). -/
theorem C4_bridge_nodup_refint (bs : List BO.Business) (rs : List BO.Review) :
    ((BO.fact_business_categories bs).Nodup ∧
      (∀ p ∈ BO.fact_business_categories bs,
        p.2 ∈ (BO.dim_category bs).map Prod.fst ∧
        p.1 ∈ (BO.dim_business bs rs).map BO.DimBusinessRow.business_id)) ∧
    (∀ (df : List Inv.Business) (dc : List (Nat × String)) (db : List Inv.DimBusRow),
      (Inv.create_fact_business_categories df dc db).Nodup ∧
      (∀ p ∈ Inv.create_fact_business_categories df dc db,
        p.2 ∈ dc.map Prod.fst ∧ p.1 ∈ db.map Inv.DimBusRow.business_key)) := by
  constructor
  constructor
  · exact List.nodup_dedup _
  · intro p hp
    unfold BO.fact_business_categories at hp
    rcases List.mem_map.mp (List.mem_dedup.mp hp) with ⟨pc, hpc, rfl⟩
    unfold innerJoin at hpc
    rcases List.mem_flatMap.mp hpc with ⟨e, he, hmatch⟩
    rcases List.mem_map.mp hmatch with ⟨c, hc, rfl⟩
    constructor
    · exact List.mem_map.mpr ⟨c, List.mem_of_mem_filter hc, rfl⟩
    · unfold BO.business_categories_exploded at he
      rcases List.mem_flatMap.mp (List.mem_of_mem_filter he) with ⟨b, hb, hbe⟩
      rcases List.mem_map.mp hbe with ⟨cat, _, rfl⟩
      exact mem_dim_business_ids bs rs b hb
  · intro df dc db
    constructor
    · exact List.nodup_dedup _
    · intro p hp
      unfold Inv.create_fact_business_categories at hp
      rcases List.mem_filterMap.mp (List.mem_dedup.mp hp) with ⟨e, he, hmatch⟩
      cases hbk : (db.find? (fun r => r.business_nk == e.1)).map Inv.DimBusRow.business_key with
      | none =>
        rw [hbk] at hmatch
        cases hck : (dc.find? (fun c => c.2 == e.2)).map Prod.fst with
        | none =>
          rw [hck] at hmatch
          exact Option.noConfusion hmatch
        | some ck =>
          rw [hck] at hmatch
          exact Option.noConfusion hmatch
      | some bk =>
        rw [hbk] at hmatch
        cases hck : (dc.find? (fun c => c.2 == e.2)).map Prod.fst with
        | none =>
          rw [hck] at hmatch
          exact Option.noConfusion hmatch
        | some ck =>
          rw [hck] at hmatch
          obtain rfl : (bk, ck) = p := Option.some.inj hmatch
          constructor
          · rcases Option.map_eq_some'.mp hck with ⟨c, hcfind, hc2⟩
            exact List.mem_map.mpr ⟨c, List.mem_of_find?_eq_some hcfind, hc2⟩
          · rcases Option.map_eq_some'.mp hbk with ⟨r, hrfind, hr2⟩
            exact List.mem_map.mpr ⟨r, List.mem_of_find?_eq_some hrfind, hr2⟩

/-- C4 counterexample: the marketing-variant bridge keeps one row per
occurrence, so an entity listing the same category twice yields a duplicate
(entity, category) pair. -/
theorem C4_bridge_duplicate_cex :
    Mkt.bridge_business_category [wDupCatBiz] = [("b1", "Food"), ("b1", "Food")] ∧
    ¬ (Mkt.bridge_business_category [wDupCatBiz]).Nodup := by
  constructor
  · rfl
  · decide

theorem C4_bridge_witness :
    ((("b1", 0) ∈ BO.fact_business_categories wC4bs) ∧
      (0 ∈ (BO.dim_category wC4bs).map Prod.fst ∧
        "b1" ∈ (BO.dim_business wC4bs []).map BO.DimBusinessRow.business_id)) ∧
    (((1, 1) ∈ Inv.create_fact_business_categories [wBiz6] wCatDimInv [wDimBusRowInv]) ∧
      (1 ∈ wCatDimInv.map Prod.fst ∧
        1 ∈ [wDimBusRowInv].map Inv.DimBusRow.business_key)) :=
  ⟨⟨by decide, (C4_bridge_nodup_refint wC4bs []).1.2 ("b1", 0) (by decide)⟩,
    ⟨by decide,
      ((C4_bridge_nodup_refint wC4bs []).2 [wBiz6] wCatDimInv [wDimBusRowInv]).2 (1, 1)
        (by decide)⟩⟩

theorem dim_category_map_snd (bs : List BO.Business) :
    (BO.dim_category bs).map Prod.snd =
      ((BO.business_categories_exploded bs).map Prod.snd).dedup := by
  unfold BO.dim_category
  exact List.enum_map_snd _

theorem inv_dim_category_map_snd (df : List Inv.Business) :
    (Inv.create_dim_category_st df).2.map Prod.snd =
      (((df.map (fun b => { b with categories := some (b.categories.getD "") })).flatMap
        (fun b => splitCommaSpace (b.categories.getD ""))).filter (fun c => c != "")).dedup := by
  simp only [Inv.create_dim_category_st]
  rw [List.map_map]
  exact List.enum_map_snd _

/-- C5 (amended): category labels are the delimiter-split tokens
deduplicated by exact string equality: they are always non-empty, and the
Spark variant additionally excludes the literal "null"; but no trimming
beyond the delimiter's own whitespace and no case normalization is applied
(counterexample: an untrimmed "Food " label, and "null" surviving in the
investors variant). -/
theorem C5_category_labels (bs : List BO.Business) (df : List Inv.Business) :
    (((BO.dim_category bs).map Prod.snd).Nodup ∧
      (∀ n ∈ (BO.dim_category bs).map Prod.snd, n ≠ "" ∧ n ≠ "null")) ∧
    (((Inv.create_dim_category_st df).2.map Prod.snd).Nodup ∧
      (∀ n ∈ (Inv.create_dim_category_st df).2.map Prod.snd, n ≠ "")) := by
  refine ⟨⟨?_, ?_⟩, ?_, ?_⟩
  · rw [dim_category_map_snd]
    exact List.nodup_dedup _
  · intro n hn
    rw [dim_category_map_snd, List.mem_dedup] at hn
    rcases List.mem_map.mp hn with ⟨p, hp, rfl⟩
    have := List.of_mem_filter hp
    simp only [Bool.and_eq_true, bne_iff_ne, ne_eq] at this
    exact this
  · rw [inv_dim_category_map_snd]
    exact List.nodup_dedup _
  · intro n hn
    rw [inv_dim_category_map_snd, List.mem_dedup] at hn
    have := List.of_mem_filter hn
    simpa using this

/-- C5 counterexample: labels are not trimmed — the Spark split leaves the
pre-comma space inside the label "Food " — and the investors variant keeps
the literal "null" as a category row. -/
theorem C5_category_label_cex :
    ("Food " ∈ (BO.dim_category [wSpaceCatBiz]).map Prod.snd ∧ strTrim "Food " ≠ "Food ") ∧
    "null" ∈ (Inv.create_dim_category_st [wNullCatBiz]).2.map Prod.snd := by decide

theorem C5_category_witness :
    ("Food" ∈ (BO.dim_category wC4bs).map Prod.snd ∧ ("Food" ≠ "" ∧ "Food" ≠ "null")) ∧
    ("null" ∈ (Inv.create_dim_category_st [wNullCatBiz]).2.map Prod.snd ∧ "null" ≠ "") :=
  ⟨⟨by decide, (C5_category_labels wC4bs [wNullCatBiz]).1.2 "Food" (by decide)⟩,
    ⟨by decide, (C5_category_labels wC4bs [wNullCatBiz]).2.2 "null" (by decide)⟩⟩

/-- C10: the Dim_Category builder mutates its input frame in place: after
it runs, every record whose categories field was null carries the empty
string instead, the business table is no longer the raw input, and by the
main sequencing both Dim_Business and Fact_Business_Categories are built
from the mutated table. -/
theorem C10_fillna_mutates_input (bs : List Inv.Business) (rs : List Inv.Review)
    (cs : List Inv.Checkin) (b : Inv.Business) (hb : b ∈ bs) (hnull : b.categories = none) :
    ({ b with categories := some "" } ∈ (Inv.create_dim_category_st bs).1) ∧
    ((Inv.create_dim_category_st bs).1 ≠ bs) ∧
    (∀ out, Inv.investors_main bs rs cs = Except.ok out →
      out.dim_business =
        Inv.create_dim_business (Inv.create_dim_category_st bs).1 (Inv.create_dim_location bs) ∧
      out.fact_business_categories =
        Inv.create_fact_business_categories (Inv.create_dim_category_st bs).1
          (Inv.create_dim_category_st bs).2 out.dim_business) := by
  refine ⟨?_, ?_, ?_⟩
  · refine List.mem_map.mpr ⟨b, hb, ?_⟩
    rw [hnull]
    rfl
  · intro heq
    have hmem : b ∈ (Inv.create_dim_category_st bs).1 := by rw [heq]; exact hb
    simp only [Inv.create_dim_category_st] at hmem
    rcases List.mem_map.mp hmem with ⟨b0, _, hfb⟩
    have hcat : b.categories = some (b0.categories.getD "") := by rw [← hfb]
    rw [hnull] at hcat
    exact Option.noConfusion hcat
  · intro out hout
    simp only [Inv.investors_main, bind, Except.bind] at hout
    split at hout
    · exact Except.noConfusion hout
    · split at hout
      · exact Except.noConfusion hout
      · rw [Except.ok.injEq] at hout
        subst hout
        exact ⟨rfl, rfl⟩

theorem C10_fillna_witness :
    (wBizC10 ∈ [wBizC10] ∧ wBizC10.categories = none) ∧
    ({ wBizC10 with categories := some "" } ∈ (Inv.create_dim_category_st [wBizC10]).1 ∧
      (Inv.create_dim_category_st [wBizC10]).1 ≠ [wBizC10]) :=
  ⟨⟨List.mem_singleton.mpr rfl, rfl⟩,
    ⟨(C10_fillna_mutates_input [wBizC10] [] [] wBizC10 (List.mem_singleton.mpr rfl) rfl).1,
      (C10_fillna_mutates_input [wBizC10] [] [] wBizC10 (List.mem_singleton.mpr rfl) rfl).2.1⟩⟩

theorem find?_eq_head?_filter {β : Type} (l : List β) (p : β → Bool) :
    l.find? p = (l.filter p).head? := by
  induction l with
  | nil => rfl
  | cons x xs ih =>
    by_cases h : p x
    · rw [List.find?_cons_of_pos _ h, List.filter_cons_of_pos h]
      rfl
    · rw [List.find?_cons_of_neg _ h, List.filter_cons_of_neg h, ih]

theorem length_filter_le_one {β γ : Type} (r : List β) (f : β → γ) (k : γ)
    (hf : (r.map f).Nodup) (p : β → Bool) (hp : ∀ x, p x = true ↔ f x = k) :
    (r.filter p).length ≤ 1 := by
  induction r with
  | nil => simp
  | cons x xs ih =>
    rw [List.map_cons, List.nodup_cons] at hf
    by_cases hx : p x
    · rw [List.filter_cons_of_pos hx]
      have hxk : f x = k := (hp x).mp hx
      have hnil : xs.filter p = [] := by
        rw [List.filter_eq_nil_iff]
        intro b hb hpb
        have hbk : f b = k := (hp b).mp hpb
        exact hf.1 (by rw [hxk, ← hbk]; exact List.mem_map.mpr ⟨b, hb, rfl⟩)
      rw [hnil]
      simp
    · rw [List.filter_cons_of_neg hx]
      exact ih hf.2

theorem leftJoinRow_eq {α β : Type} (a : α) (right : List β) (p : β → Bool)
    (h : (right.filter p).length ≤ 1) :
    leftJoinRow a right p = [(a, right.find? p)] := by
  unfold leftJoinRow
  rw [find?_eq_head?_filter]
  cases hf : right.filter p with
  | nil => rfl
  | cons b t =>
    have ht : t = [] := by
      cases t with
      | nil => rfl
      | cons u v => rw [hf] at h; simp at h
    subst ht
    rfl

theorem leftJoin_eq_map_find? {α β : Type} (left : List α) (right : List β)
    (key : α → β → Bool) (h : ∀ a, (right.filter (key a)).length ≤ 1) :
    leftJoin left right key = left.map (fun a => (a, right.find? (key a))) := by
  induction left with
  | nil => rfl
  | cons a l ih =>
    show leftJoinRow a right (key a) ++ leftJoin l right key = _
    rw [leftJoinRow_eq a right (key a) (h a), ih]
    rfl

theorem innerJoin_eq_filter_map {α β : Type} (left : List α) (right : List β)
    (key : α → β → Bool) (val : α → β)
    (hlen : ∀ a, (right.filter (key a)).length ≤ 1)
    (hdet : ∀ a b, b ∈ right → key a b = true → b = val a) :
    innerJoin left right key =
      (left.filter (fun a => right.any (key a))).map (fun a => (a, val a)) := by
  induction left with
  | nil => rfl
  | cons a l ih =>
    show ((right.filter (key a)).map (fun b => (a, b))) ++ innerJoin l right key = _
    rw [ih, List.filter_cons]
    by_cases h : right.any (key a)
    · have hfil : right.filter (key a) = [val a] := by
        cases hf : right.filter (key a) with
        | nil =>
          rcases List.any_eq_true.mp h with ⟨b, hb, hkb⟩
          have hmem : b ∈ right.filter (key a) := List.mem_filter.mpr ⟨hb, hkb⟩
          rw [hf] at hmem
          exact absurd hmem (List.not_mem_nil b)
        | cons b t =>
          have hlen1 := hlen a
          rw [hf] at hlen1
          have ht : t = [] := by
            cases t with
            | nil => rfl
            | cons u v => simp at hlen1
          subst ht
          have hbmem : b ∈ right.filter (key a) := by
            rw [hf]
            exact List.mem_cons_self b []
          rcases List.mem_filter.mp hbmem with ⟨hbr, hbk⟩
          rw [hdet a b hbr hbk]
      rw [hfil]
      simp [h]
    · have hfil : right.filter (key a) = [] := by
        rw [List.filter_eq_nil_iff]
        intro b hb hkb
        exact absurd (List.any_eq_true.mpr ⟨b, hb, hkb⟩) (by simpa using h)
      rw [hfil]
      simp [h]

theorem mkt_distinct_dates_nodup (rs : List Mkt.Review) (ts : List Mkt.Tip)
    (cs : List Mkt.Checkin) : (Mkt.distinct_dates rs ts cs).Nodup := by
  unfold Mkt.distinct_dates
  refine List.Nodup.filterMap ?_ (List.nodup_dedup _)
  intro a a' b hb hb'
  simp only [id, Option.mem_def] at hb hb'
  rw [hb, hb']

theorem mkt_distinct_dates_valid (rs : List Mkt.Review) (ts : List Mkt.Tip)
    (cs : List Mkt.Checkin) (d : Date) (h : d ∈ Mkt.distinct_dates rs ts cs) : d.valid := by
  unfold Mkt.distinct_dates at h
  rcases List.mem_filterMap.mp h with ⟨a, ha, hid⟩
  rw [List.mem_dedup] at ha
  rw [id_eq] at hid
  subst hid
  unfold Mkt.review_ts Mkt.tip_ts Mkt.checkin_ts at ha
  rcases List.mem_append.mp ha with h1 | h1
  · rcases List.mem_append.mp h1 with h2 | h2
    · rcases List.mem_map.mp h2 with ⟨r, _, hr⟩
      exact parseDate_valid hr
    · rcases List.mem_map.mp h2 with ⟨t, _, ht⟩
      exact parseDate_valid ht
  · rcases List.mem_flatMap.mp h1 with ⟨c, _, hc⟩
    rcases List.mem_map.mp hc with ⟨t, _, ht⟩
    exact parseDate_valid ht

theorem dim_date_ids_nodup (rs : List Mkt.Review) (ts : List Mkt.Tip)
    (cs : List Mkt.Checkin) : (Mkt.dim_date_ids rs ts cs).Nodup := by
  unfold Mkt.dim_date_ids
  rw [List.Perm.nodup_iff (List.perm_insertionSort _ _)]
  refine List.Nodup.map_on ?_ (mkt_distinct_dates_nodup rs ts cs)
  intro x hx y hy hxy
  have hdec := congrArg decodeDateId hxy
  rwa [decode_dateId (mkt_distinct_dates_valid rs ts cs x hx),
    decode_dateId (mkt_distinct_dates_valid rs ts cs y hy)] at hdec

/-- C8 (amended): under primary-key uniqueness of the user, business and
checkin natural keys, the engagement fact retains exactly one row per review
whose date, user and business exist in the respective dimensions (the three
dimensions that are mandatory for the row's key space), and a missing tip or
checkin aggregate never drops the row: the dependent measure is defaulted to
0 by the left join.  However, the investors variant lets a date-parse error
escape table construction (see the counterexample), so "no exception other
than SourceUnavailable escapes" does not hold there. -/
theorem C8_referential_gap_defaults (rs : List Mkt.Review) (ts : List Mkt.Tip)
    (cs : List Mkt.Checkin) (us : List Mkt.User) (bs : List Mkt.Business)
    (hu : (Mkt.dim_user_ids us).Nodup)
    (hb : ((Mkt.dim_business bs).map Mkt.DimBusiness.business_id).Nodup)
    (hc : (cs.map Mkt.Checkin.business_id).Nodup) :
    Mkt.fact_customer_engagement rs ts cs us bs =
      ((Mkt.fact_base rs).filter (fun r =>
          ((Mkt.dim_business bs).map Mkt.DimBusiness.business_id).any
              (fun b0 => r.business_id == b0) &&
            ((Mkt.dim_user_ids us).any (fun u => r.user_id == u) &&
              (Mkt.dim_date_ids rs ts cs).any (fun i => r.date_id == some i)))).map
        (fun r =>
          { review_id := r.review_id, user_id := r.user_id, business_id := r.business_id,
            date_id := r.date_id.getD 0, stars := r.stars, useful_votes := r.useful_votes,
            funny_votes := r.funny_votes, cool_votes := r.cool_votes,
            tip_count := (((Mkt.tip_counts ts).find?
              (fun t => t.1.1 == r.user_id && t.1.2 == r.business_id)).map Prod.snd).getD 0,
            checkin_count := (((Mkt.checkin_counts_agg cs).find?
              (fun c => c.1 == r.business_id)).map Prod.snd).getD 0 }) := by
  have h1 : ∀ a : Mkt.FactBase, ((Mkt.tip_counts ts).filter
      (fun t => t.1.1 == a.user_id && t.1.2 == a.business_id)).length ≤ 1 := by
    intro a
    refine length_filter_le_one _ Prod.fst (a.user_id, a.business_id) ?_ _ ?_
    · unfold Mkt.tip_counts
      rw [map_fst_groupCount]
      exact List.nodup_dedup _
    · intro x
      simp [Bool.and_eq_true, beq_iff_eq, Prod.ext_iff]
  have h2 : ∀ p : Mkt.FactBase × Option ((String × String) × Nat),
      ((Mkt.checkin_counts_agg cs).filter (fun c => c.1 == p.1.business_id)).length ≤ 1 := by
    intro p
    refine length_filter_le_one _ Prod.fst p.1.business_id ?_ _ ?_
    · unfold Mkt.checkin_counts_agg
      rw [List.map_map]
      exact hc
    · intro x
      simp [beq_iff_eq]
  have h3len : ∀ p : (Mkt.FactBase × Option ((String × String) × Nat)) × Option (String × Nat),
      ((Mkt.dim_date_ids rs ts cs).filter (fun i => p.1.1.date_id == some i)).length ≤ 1 := by
    intro p
    refine length_filter_le_one _ (fun i => some i) p.1.1.date_id ?_ _ ?_
    · exact (dim_date_ids_nodup rs ts cs).map (Option.some_injective Nat)
    · intro x
      constructor
      · intro hx
        exact (beq_iff_eq.mp hx).symm
      · intro hx
        exact beq_iff_eq.mpr hx.symm
  have h3det : ∀ (p : (Mkt.FactBase × Option ((String × String) × Nat)) × Option (String × Nat))
      (i : Nat), i ∈ Mkt.dim_date_ids rs ts cs →
      (p.1.1.date_id == some i) = true → i = p.1.1.date_id.getD 0 := by
    intro p i _ hi
    rw [beq_iff_eq] at hi
    rw [hi]
    rfl
  have h4len : ∀ p : ((Mkt.FactBase × Option ((String × String) × Nat)) ×
      Option (String × Nat)) × Nat,
      ((Mkt.dim_user_ids us).filter (fun u => p.1.1.1.user_id == u)).length ≤ 1 := by
    intro p
    refine length_filter_le_one _ (fun u => u) p.1.1.1.user_id ?_ _ ?_
    · simpa using hu
    · intro x
      constructor
      · intro hx
        exact (beq_iff_eq.mp hx).symm
      · intro hx
        exact beq_iff_eq.mpr hx.symm
  have h4det : ∀ (p : ((Mkt.FactBase × Option ((String × String) × Nat)) ×
      Option (String × Nat)) × Nat) (u : String), u ∈ Mkt.dim_user_ids us →
      (p.1.1.1.user_id == u) = true → u = p.1.1.1.user_id := by
    intro p u _ hu2
    rw [beq_iff_eq] at hu2
    exact hu2.symm
  have h5len : ∀ p : (((Mkt.FactBase × Option ((String × String) × Nat)) ×
      Option (String × Nat)) × Nat) × String,
      (((Mkt.dim_business bs).map Mkt.DimBusiness.business_id).filter
        (fun b0 => p.1.1.1.1.business_id == b0)).length ≤ 1 := by
    intro p
    refine length_filter_le_one _ (fun b0 => b0) p.1.1.1.1.business_id ?_ _ ?_
    · simpa using hb
    · intro x
      constructor
      · intro hx
        exact (beq_iff_eq.mp hx).symm
      · intro hx
        exact beq_iff_eq.mpr hx.symm
  have h5det : ∀ (p : (((Mkt.FactBase × Option ((String × String) × Nat)) ×
      Option (String × Nat)) × Nat) × String) (b0 : String),
      b0 ∈ (Mkt.dim_business bs).map Mkt.DimBusiness.business_id →
      (p.1.1.1.1.business_id == b0) = true → b0 = p.1.1.1.1.business_id := by
    intro p b0 _ hb2
    rw [beq_iff_eq] at hb2
    exact hb2.symm
  simp only [Mkt.fact_customer_engagement]
  rw [leftJoin_eq_map_find? _ _ _ h1]
  rw [leftJoin_eq_map_find? _ _ _ h2]
  rw [innerJoin_eq_filter_map _ _ _ (fun p => p.1.1.date_id.getD 0) h3len h3det]
  rw [innerJoin_eq_filter_map _ _ _ (fun p => p.1.1.1.user_id) h4len h4det]
  rw [innerJoin_eq_filter_map _ _ _ (fun p => p.1.1.1.1.business_id) h5len h5det]
  simp only [List.map_map, List.filter_map, List.filter_filter]
  rfl

/-- C8 counterexample: in the investors variant a review date is parsed
strictly, so a malformed review date raises a parse error that escapes both
fact-table and date-dimension construction — an exception other than
SourceUnavailable — instead of the malformed element being dropped. -/
theorem C8_parse_error_escapes_cex :
    Inv.create_fact_business_performance [wBadReview] [] [] [] = Except.error "garbage" ∧
    Inv.create_dim_date [wBadReview] [] = Except.error "garbage" :=
  ⟨rfl, rfl⟩

theorem C8_referential_gap_witness :
    ((Mkt.dim_user_ids [wMUser]).Nodup ∧
      ((Mkt.dim_business [wMBiz]).map Mkt.DimBusiness.business_id).Nodup ∧
      (([] : List Mkt.Checkin).map Mkt.Checkin.business_id).Nodup) ∧
    Mkt.fact_customer_engagement [wMRev] [] [] [wMUser] [wMBiz] =
      ((Mkt.fact_base [wMRev]).filter (fun r =>
          ((Mkt.dim_business [wMBiz]).map Mkt.DimBusiness.business_id).any
              (fun b0 => r.business_id == b0) &&
            ((Mkt.dim_user_ids [wMUser]).any (fun u => r.user_id == u) &&
              (Mkt.dim_date_ids [wMRev] [] []).any (fun i => r.date_id == some i)))).map
        (fun r =>
          { review_id := r.review_id, user_id := r.user_id, business_id := r.business_id,
            date_id := r.date_id.getD 0, stars := r.stars, useful_votes := r.useful_votes,
            funny_votes := r.funny_votes, cool_votes := r.cool_votes,
            tip_count := (((Mkt.tip_counts []).find?
              (fun t => t.1.1 == r.user_id && t.1.2 == r.business_id)).map Prod.snd).getD 0,
            checkin_count := (((Mkt.checkin_counts_agg []).find?
              (fun c => c.1 == r.business_id)).map Prod.snd).getD 0 }) :=
  ⟨⟨by decide, by decide, by decide⟩,
    C8_referential_gap_defaults [wMRev] [] [] [wMUser] [wMBiz] (by decide) (by decide)
      (by decide)⟩
